import Mathlib

/-!
Verification of the message retrieval and lifecycle-management engine of the
peek-ui-extension repository: shallow embedding of
`src/utils/errorHandler.ts`, `src/utils/serviceBusClientManager.ts` and
`src/utils/serviceBusService.ts`, with theorems about the claims of the
specification.
-/

namespace PeekUI

/-- Boolean test whether the second list of characters is an initial segment
of the first; models the character-by-character comparison underlying the
JavaScript `String.prototype.includes` search. -/
def listStartsWith : List Char → List Char → Bool
  | _, [] => true
  | [], _ :: _ => false
  | c :: cs, p :: ps => c = p && listStartsWith cs ps

/-- Boolean test whether `pat` occurs as a contiguous substring of `s`
(at any position), models JavaScript `s.includes(pat)` on the character
lists of the strings. -/
def listHasSubstr : List Char → List Char → Bool
  | s, pat =>
    if listStartsWith s pat then true
    else
      match s with
      | [] => false
      | _ :: rest => listHasSubstr rest pat

/-- Model of the JavaScript `connectionString.includes(pattern)` call used by
`ErrorHandler.validateConnectionString`. -/
def strIncludes (s pat : String) : Bool :=
  listHasSubstr s.data pat.data

/-- Whitespace predicate used to model JavaScript `String.prototype.trim`. -/
def isJsWhitespace (c : Char) : Bool :=
  c = ' ' ∨ c = '\t' ∨ c = '\n' ∨ c = '\r'

/-- Model of the JavaScript emptiness test
`!connectionString || connectionString.trim() === ''`: the string is empty or
consists of whitespace only. -/
def isBlank (s : String) : Bool :=
  s.data.all isJsWhitespace

/-- Error message for an empty connection string
(`errorHandler.ts`, line 69). -/
def emptyMsg : String := "Connection string cannot be empty."

/-- Generic format error reported when the string lacks the
`Endpoint=sb://` marker (`errorHandler.ts`, line 77). -/
def endpointMsg : String :=
  "Invalid Service Bus connection string. Must start with \"Endpoint=sb://...\""

/-- Generic format error reported when the string lacks the
`SharedAccessKey` marker (`errorHandler.ts`, line 81). -/
def sharedKeyMsg : String :=
  "Invalid Service Bus connection string. Must contain \"SharedAccessKey\"."

/-- Specific wrong-product error for Cosmos DB credential strings
(`errorHandler.ts`, line 86). -/
def cosmosMsg : String :=
  "This appears to be a Cosmos DB connection string. Please use a Service Bus connection string instead."

/-- Embedding of `ErrorHandler.validateConnectionString`
(`src/utils/errorHandler.ts`, lines 67-90): returns `some errorMessage` when
the string is rejected and `none` when it is accepted.  The checks appear in
the source order: empty check, `Endpoint=sb://` marker, `SharedAccessKey=`
marker, and only then the Cosmos DB detection. -/
def validateConnectionString (connectionString : String) : Option String :=
  if isBlank connectionString then
    some emptyMsg
  else
    if ¬ (strIncludes connectionString "Endpoint=sb://") then
      some endpointMsg
    else
      if ¬ (strIncludes connectionString "SharedAccessKey=") then
        some sharedKeyMsg
      else
        if strIncludes connectionString "AccountEndpoint=" ∨
            strIncludes connectionString "documents.azure.com" then
          some cosmosMsg
        else
          none

/-! ### Message model (`@azure/service-bus` message records as used by the code) -/

/-- A received Service Bus message: the fields copied by
`createMessageFromDeadletter` plus broker-assigned fields that are *not*
copied (delivery count, sequence number, enqueued time, dead-letter metadata,
lock token).  `messageId` is optional, modelling the JavaScript
`message.messageId?` access. -/
structure ReceivedMessage where
  messageId : Option String
  body : String
  contentType : Option String
  correlationId : Option String
  subject : Option String
  partitionKey : Option String
  replyTo : Option String
  replyToSessionId : Option String
  sessionId : Option String
  timeToLive : Option Nat
  applicationProperties : List (String × String)
  deliveryCount : Nat
  sequenceNumber : Nat
  enqueuedTimeUtc : Nat
  deadLetterReason : Option String
  deadLetterErrorDescription : Option String
  lockToken : String
deriving DecidableEq, Repr

/-- An outbound `ServiceBusMessage` literal as constructed by
`createMessageFromDeadletter` (`serviceBusService.ts`, lines 692-706): it has
exactly the eleven fields listed there and nothing else. -/
structure OutboundMessage where
  body : String
  contentType : Option String
  correlationId : Option String
  subject : Option String
  messageId : Option String
  partitionKey : Option String
  replyTo : Option String
  replyToSessionId : Option String
  sessionId : Option String
  timeToLive : Option Nat
  applicationProperties : List (String × String)
deriving DecidableEq, Repr

/-- Embedding of `createMessageFromDeadletter`
(`serviceBusService.ts`, lines 692-706). -/
def createMessageFromDeadletter (message : ReceivedMessage) : OutboundMessage :=
  { body := message.body
    contentType := message.contentType
    correlationId := message.correlationId
    subject := message.subject
    messageId := message.messageId
    partitionKey := message.partitionKey
    replyTo := message.replyTo
    replyToSessionId := message.replyToSessionId
    sessionId := message.sessionId
    timeToLive := message.timeToLive
    applicationProperties := message.applicationProperties }

/-- Model of the JavaScript expression `message.messageId?.toString() || ''`:
an absent message id stringifies to the empty string. -/
def msgIdStr (m : ReceivedMessage) : String :=
  m.messageId.getD ""

/-! ### Deduplication by messageId

Both retrieval modes run the same loop over fetched messages: they keep a
`Set` of already-seen message ids and an array of accepted messages, and a
message is appended exactly when its stringified id is non-empty and unseen
(`serviceBusService.ts`, lines 294-306 and 347-353).  The mutable
set-plus-array loop is modelled by threading the seen list through a
recursion that also returns the list of newly accepted messages. -/

/-- One deduplication pass: given the ids already seen, returns the updated
seen list and the sublist of `l` that the loop appends (messages whose id is
non-empty and not yet seen, first occurrence kept). -/
def dedupAuxFull (seen : List String) : List ReceivedMessage → List String × List ReceivedMessage
  | [] => (seen, [])
  | m :: rest =>
    if msgIdStr m ≠ "" ∧ msgIdStr m ∉ seen then
      ((dedupAuxFull (msgIdStr m :: seen) rest).1, m :: (dedupAuxFull (msgIdStr m :: seen) rest).2)
    else
      dedupAuxFull seen rest

/-- Deduplicated message list produced from a fetched stream, starting from an
empty seen-set (as both retrieval loops do). -/
def dedupByMessageId (msgs : List ReceivedMessage) : List ReceivedMessage :=
  (dedupAuxFull [] msgs).2

/-! ### Non-destructive (peek) retrieval mode -/

/-- The design constant of `peekMessagesWithPeekLock`
(`serviceBusService.ts`, line 275): the number of concurrent
`peekMessages` calls launched against the same receiver. -/
def iterations : Nat := 50

/-- Embedding of `peekMessagesWithPeekLock`
(`serviceBusService.ts`, lines 265-314).  The broker is abstracted as an
oracle `peek i n` giving the batch returned by the `i`-th concurrent
`peekMessages(n)` call (a call whose promise rejects contributes `[]`, as the
per-call `catch` does).  The first component is the trace of requested counts,
one entry per issued `peekMessages` call; the second is the merged,
deduplicated result. -/
def peekMessagesWithPeekLock (peek : Nat → Nat → List ReceivedMessage) (amount : Nat) :
    List Nat × List ReceivedMessage :=
  if amount ≤ 0 then ([], [])
  else
    (List.replicate iterations amount,
      dedupByMessageId (((List.range iterations).map (fun i => peek i amount)).flatten))

/-! ### Destructive-safe (receive-and-release) retrieval mode -/

/-- The batch ceiling `Math.ceil(amount / 10) + 5` of
`receiveAndAbandonMessages` (`serviceBusService.ts`, line 330). -/
def maxBatches (amount : Nat) : Nat :=
  (amount + 9) / 10 + 5

/-- Result of the receive-and-release loop: the returned message list, the
trace of batches obtained from `receiveMessages` calls (one entry per call,
in order), and the trace of messages passed to `abandonMessage`. -/
structure RecvResult where
  messages : List ReceivedMessage
  consumed : List (List ReceivedMessage)
  abandoned : List ReceivedMessage
deriving DecidableEq, Repr

/-- The `while` loop of `receiveAndAbandonMessages`
(`serviceBusService.ts`, lines 334-363).  `recv bc` is the broker's answer to
the `bc`-th `receiveMessages(10, ...)` call.  The fuel argument equals
`maxBatches - batchCount`, so `fuel = 0` is exactly the loop guard
`batchCount < maxBatches` failing; the guard `allMessages.length < amount` is
the `if` below, and an empty batch breaks out of the loop after being
counted. -/
def receiveAux (recv : Nat → List ReceivedMessage) (amount : Nat) :
    Nat → Nat → List ReceivedMessage → List String →
    List (List ReceivedMessage) → List ReceivedMessage → RecvResult
  | 0, _, msgs, _, consumed, abandoned => ⟨msgs, consumed, abandoned⟩
  | fuel + 1, bc, msgs, seen, consumed, abandoned =>
    if msgs.length < amount then
      if recv bc = [] then
        ⟨msgs, consumed ++ [recv bc], abandoned⟩
      else
        receiveAux recv amount fuel (bc + 1)
          (msgs ++ (dedupAuxFull seen (recv bc)).2) (dedupAuxFull seen (recv bc)).1
          (consumed ++ [recv bc]) (abandoned ++ recv bc)
    else
      ⟨msgs, consumed, abandoned⟩

/-- Embedding of `receiveAndAbandonMessages`
(`serviceBusService.ts`, lines 317-371): starts with an empty message list,
empty seen-set, batch count `0` and the full batch budget. -/
def receiveAndAbandonMessages (recv : Nat → List ReceivedMessage) (amount : Nat) : RecvResult :=
  if amount ≤ 0 then ⟨[], [], []⟩
  else receiveAux recv amount (maxBatches amount) 0 [] [] [] []

/-! ### Dead-letter transfer -/

/-- Events observable at the broker during `transferMessages`: a
`sendMessages` call carrying a chunk of outbound copies, and a
`completeMessage` call on one original dead-lettered message. -/
inductive TransferEvent where
  | send (chunk : List OutboundMessage)
  | complete (m : ReceivedMessage)
deriving DecidableEq, Repr

/-- The `while` loop of `transferMessages`
(`serviceBusService.ts`, lines 388-395): repeatedly splice off up to 10
drained messages, send their copies, then complete each original.  The fuel
argument bounds the recursion; since every iteration removes at least one
message, fuel equal to the initial list length always suffices. -/
def transferAux : Nat → List ReceivedMessage → List TransferEvent
  | 0, _ => []
  | _, [] => []
  | fuel + 1, m :: rest =>
    TransferEvent.send (((m :: rest).take 10).map createMessageFromDeadletter) ::
      (((m :: rest).take 10).map TransferEvent.complete ++
        transferAux fuel ((m :: rest).drop 10))

/-- Embedding of `transferMessages`
(`serviceBusService.ts`, lines 385-401) applied to the list of drained
dead-lettered messages, as the trace of send and complete events it issues in
order. -/
def transferMessages (receivedMessages : List ReceivedMessage) : List TransferEvent :=
  transferAux receivedMessages.length receivedMessages

/-! ### ServiceBusClientManager (`src/utils/serviceBusClientManager.ts`)

The two caches are modelled as association lists from connection string to an
abstract handle identifier; the second component of each operation's result is
the trace of handles on which `close()` was called. -/

/-- Lookup in an association list keyed by strings: models `Map.get`. -/
def lookupKey {α : Type} (l : List (String × α)) (k : String) : Option α :=
  (l.find? (fun p => p.1 = k)).map (fun p => p.2)

/-- Removal from an association list keyed by strings: models `Map.delete`. -/
def eraseKey {α : Type} (l : List (String × α)) (k : String) : List (String × α) :=
  l.filter (fun p => p.1 ≠ k)

/-- Insertion into an association list keyed by strings: models `Map.set`
(replace the entry if the key is present, append otherwise). -/
def setKey {α : Type} (l : List (String × α)) (k : String) (v : α) : List (String × α) :=
  if (lookupKey l k).isSome then
    l.map (fun p => if p.1 = k then (k, v) else p)
  else
    l ++ [(k, v)]

/-- State of `ServiceBusClientManager`: the data-plane client cache and the
administration client cache, each keyed by connection string. -/
structure ManagerState where
  clients : List (String × Nat)
  adminClients : List (String × Nat)
deriving DecidableEq, Repr

/-- Embedding of `ServiceBusClientManager.closeClient`
(`serviceBusClientManager.ts`, lines 39-46): close and evict the data-plane
client if cached, and evict (only) the admin client entry.  The second
component is the list of handles actually closed. -/
def closeClient (st : ManagerState) (connectionString : String) : ManagerState × List Nat :=
  match lookupKey st.clients connectionString with
  | some h =>
      (⟨eraseKey st.clients connectionString, eraseKey st.adminClients connectionString⟩, [h])
  | none =>
      (⟨st.clients, eraseKey st.adminClients connectionString⟩, [])

/-- Embedding of `ServiceBusClientManager.closeAllClients`
(`serviceBusClientManager.ts`, lines 51-56): close every data-plane client,
then clear both caches.  The second component is the list of handles closed. -/
def closeAllClients (st : ManagerState) : ManagerState × List Nat :=
  (⟨[], []⟩, st.clients.map (fun p => p.2))

/-! ### Monitor registry (`serviceBusService.ts`, lines 17-551) -/

/-- Entity kind of a monitor. -/
inductive EntityType where
  | queue
  | subscription
deriving DecidableEq, Repr

/-- An entry of the `activeMonitors` map (`serviceBusService.ts`,
lines 18-24), with the receiver handle abstracted to an identifier. -/
structure ActiveMonitor where
  receiverId : Nat
  connectionString : String
  entityPath : String
  entityType : EntityType
deriving DecidableEq, Repr

/-- The monitor key, connectionString followed by a colon followed by
entityPath, used by `startMonitoring` and `stopMonitoring`. -/
def monitorKey (connectionString entityPath : String) : String :=
  connectionString ++ ":" ++ entityPath

/-- Embedding of `stopMonitoring` (`serviceBusService.ts`, lines 524-539):
if a monitor is registered for the key, close its receiver and evict the
entry; otherwise do nothing.  The second component is the trace of receiver
handles closed. -/
def stopMonitoring (st : List (String × ActiveMonitor)) (connectionString entityPath : String) :
    List (String × ActiveMonitor) × List Nat :=
  match lookupKey st (monitorKey connectionString entityPath) with
  | some monitor =>
      (eraseKey st (monitorKey connectionString entityPath), [monitor.receiverId])
  | none => (st, [])

/-- Environment outcome of the administrative property lookup performed by
`startMonitoring` (`getQueue` / `getSubscription`): either it yields the
entity's `requiresSession` flag or it throws. -/
inductive EntityProps where
  | ok (requiresSession : Bool)
  | lookupError
deriving DecidableEq, Repr

/-- How a `startMonitoring` call ends: a monitor was registered, the call
declined because the entity requires sessions, or an error was thrown (missing
topic name for a subscription, or a failed property lookup). -/
inductive StartOutcome where
  | started
  | declinedSession
  | errored
deriving DecidableEq, Repr

/-- Result of a `startMonitoring` call: the new registry, the outcome, and the
trace of receiver handles closed while stopping a prior monitor. -/
structure StartResult where
  monitors : List (String × ActiveMonitor)
  outcome : StartOutcome
  closedReceivers : List Nat
deriving DecidableEq, Repr

/-- Embedding of `startMonitoring` (`serviceBusService.ts`, lines 420-522).
In source order: if the key is already registered, stop that monitor first;
for a subscription without a topic name, throw; query the entity properties
(may throw); if the entity requires sessions, warn and return without
registering; otherwise create a receiver (`newReceiverId`), subscribe, and
register the monitor under the key. -/
def startMonitoring (st : List (String × ActiveMonitor)) (connectionString entityPath : String)
    (entityType : EntityType) (topicName : Option String) (props : EntityProps)
    (newReceiverId : Nat) : StartResult :=
  let key := monitorKey connectionString entityPath
  let stopRes :=
    if (lookupKey st key).isSome then stopMonitoring st connectionString entityPath
    else (st, [])
  match entityType, topicName with
  | EntityType.subscription, none => ⟨stopRes.1, StartOutcome.errored, stopRes.2⟩
  | _, _ =>
    match props with
    | EntityProps.lookupError => ⟨stopRes.1, StartOutcome.errored, stopRes.2⟩
    | EntityProps.ok true => ⟨stopRes.1, StartOutcome.declinedSession, stopRes.2⟩
    | EntityProps.ok false =>
        ⟨setKey stopRes.1 key ⟨newReceiverId, connectionString, entityPath, entityType⟩,
          StartOutcome.started, stopRes.2⟩

/-! ### Top-level retrieval entry points -/

/-- Broker-side effects of a retrieval entry point: obtaining a client handle
from the manager, creating a receiver (on the live entity or its dead-letter
sub-queue), and one network round trip. -/
inductive SBEffect where
  | getClient
  | createReceiver (entity : String) (deadLetter : Bool)
  | netCall
deriving DecidableEq, Repr

/-- Messages and network round trips produced by the selected retrieval mode
(`useReceiveMode ? receiveAndAbandonMessages : peekMessagesWithPeekLock`):
in receive mode one round trip per `receiveMessages` call plus one per
`abandonMessage` call, in peek mode one per issued `peekMessages` call. -/
def fetchMessages (useReceiveMode : Bool) (peek : Nat → Nat → List ReceivedMessage)
    (recv : Nat → List ReceivedMessage) (amount : Nat) :
    List ReceivedMessage × List SBEffect :=
  if useReceiveMode then
    ((receiveAndAbandonMessages recv amount).messages,
      List.replicate ((receiveAndAbandonMessages recv amount).consumed.length +
        (receiveAndAbandonMessages recv amount).abandoned.length) SBEffect.netCall)
  else
    ((peekMessagesWithPeekLock peek amount).2,
      List.replicate (peekMessagesWithPeekLock peek amount).1.length SBEffect.netCall)

/-- Embedding of `peekQueueMessages` (`serviceBusService.ts`, lines 123-144):
non-positive live and dead-letter counts short-circuit to an empty result
before the client is obtained; otherwise the client is obtained and each
positive side creates a receiver and fetches in the selected mode.  The
second component is the effect trace. -/
def peekQueueMessages (queue : String) (amount dlAmount : Int) (useReceiveMode : Bool)
    (peekLive peekDl : Nat → Nat → List ReceivedMessage)
    (recvLive recvDl : Nat → List ReceivedMessage) :
    (List ReceivedMessage × List ReceivedMessage) × List SBEffect :=
  if amount < 1 ∧ dlAmount < 1 then
    (([], []), [])
  else
    let live :=
      if amount > 0 then
        let f := fetchMessages useReceiveMode peekLive recvLive amount.toNat
        (f.1, SBEffect.createReceiver queue false :: f.2)
      else ([], [])
    let dl :=
      if dlAmount > 0 then
        let f := fetchMessages useReceiveMode peekDl recvDl dlAmount.toNat
        (f.1, SBEffect.createReceiver queue true :: f.2)
      else ([], [])
    ((live.1, dl.1), SBEffect.getClient :: (live.2 ++ dl.2))

/-- Embedding of `peekSubscriptionMessages`
(`serviceBusService.ts`, lines 146-170): same short-circuit and structure as
the queue variant, with receivers created on the topic/subscription pair. -/
def peekSubscriptionMessages (topic subscription : String) (amount dlAmount : Int)
    (useReceiveMode : Bool) (peekLive peekDl : Nat → Nat → List ReceivedMessage)
    (recvLive recvDl : Nat → List ReceivedMessage) :
    (List ReceivedMessage × List ReceivedMessage) × List SBEffect :=
  if amount < 1 ∧ dlAmount < 1 then
    (([], []), [])
  else
    let live :=
      if amount > 0 then
        let f := fetchMessages useReceiveMode peekLive recvLive amount.toNat
        (f.1, SBEffect.createReceiver (topic ++ "/" ++ subscription) false :: f.2)
      else ([], [])
    let dl :=
      if dlAmount > 0 then
        let f := fetchMessages useReceiveMode peekDl recvDl dlAmount.toNat
        (f.1, SBEffect.createReceiver (topic ++ "/" ++ subscription) true :: f.2)
      else ([], [])
    ((live.1, dl.1), SBEffect.getClient :: (live.2 ++ dl.2))

/-! ### Helper lemmas about deduplication -/

/-- Deduplicating a concatenation processes the first part, then the second
part starting from the seen-set left by the first. -/
theorem dedupAuxFull_append (l₁ l₂ : List ReceivedMessage) (seen : List String) :
    dedupAuxFull seen (l₁ ++ l₂) =
      ((dedupAuxFull (dedupAuxFull seen l₁).1 l₂).1,
        (dedupAuxFull seen l₁).2 ++ (dedupAuxFull (dedupAuxFull seen l₁).1 l₂).2) := by
  induction l₁ generalizing seen with
  | nil => simp [dedupAuxFull]
  | cons m rest ih =>
    by_cases h : msgIdStr m ≠ "" ∧ msgIdStr m ∉ seen
    · simp [dedupAuxFull, h, ih]
    · simp [dedupAuxFull, h, ih]

/-- Every message accepted by a deduplication pass has an id that is
non-empty and was not in the initial seen-set, and the accepted ids are
pairwise distinct. -/
theorem dedupAuxFull_fresh (l : List ReceivedMessage) (seen : List String) :
    (∀ m ∈ (dedupAuxFull seen l).2, msgIdStr m ∉ seen ∧ msgIdStr m ≠ "") ∧
      ((dedupAuxFull seen l).2.map msgIdStr).Nodup := by
  induction l generalizing seen with
  | nil => simp [dedupAuxFull]
  | cons m rest ih =>
    by_cases h : msgIdStr m ≠ "" ∧ msgIdStr m ∉ seen
    · obtain ⟨ih1, ih2⟩ := ih (msgIdStr m :: seen)
      refine ⟨?_, ?_⟩
      · intro x hx
        simp only [dedupAuxFull, if_pos h, List.mem_cons] at hx
        rcases hx with rfl | hx
        · exact ⟨h.2, h.1⟩
        · exact ⟨fun hc => (ih1 x hx).1 (List.mem_cons_of_mem _ hc), (ih1 x hx).2⟩
      · simp only [dedupAuxFull, if_pos h, List.map_cons, List.nodup_cons]
        refine ⟨?_, ih2⟩
        intro hc
        obtain ⟨x, hx, hxid⟩ := List.mem_map.mp hc
        exact (ih1 x hx).1 (hxid ▸ List.mem_cons_self _ _)
    · simp only [dedupAuxFull, if_neg h]
      exact ih seen

/-- First-occurrence property: every accepted message occurs in the input at
a position before which its id never appears. -/
theorem dedupAuxFull_first (l : List ReceivedMessage) (seen : List String) (m : ReceivedMessage)
    (hm : m ∈ (dedupAuxFull seen l).2) :
    ∃ l₁ l₂, l = l₁ ++ m :: l₂ ∧ msgIdStr m ∉ seen ∧
      ∀ x ∈ l₁, msgIdStr x ≠ msgIdStr m := by
  induction l generalizing seen with
  | nil => simp [dedupAuxFull] at hm
  | cons a rest ih =>
    by_cases h : msgIdStr a ≠ "" ∧ msgIdStr a ∉ seen
    · simp only [dedupAuxFull, if_pos h, List.mem_cons] at hm
      rcases hm with rfl | hm
      · exact ⟨[], rest, rfl, h.2, by simp⟩
      · obtain ⟨l₁, l₂, heq, hnotin, hall⟩ := ih (msgIdStr a :: seen) hm
        refine ⟨a :: l₁, l₂, by simp [heq], fun hc => hnotin (List.mem_cons_of_mem _ hc), ?_⟩
        intro x hx
        rcases List.mem_cons.mp hx with rfl | hx
        · exact fun hc => hnotin (hc ▸ List.mem_cons_self _ _)
        · exact hall x hx
    · simp only [dedupAuxFull, if_neg h] at hm
      obtain ⟨l₁, l₂, heq, hnotin, hall⟩ := ih seen hm
      have hmid : msgIdStr m ≠ "" := ((dedupAuxFull_fresh rest seen).1 m hm).2
      refine ⟨a :: l₁, l₂, by simp [heq], hnotin, ?_⟩
      intro x hx
      rcases List.mem_cons.mp hx with rfl | hx
      · rcases Decidable.not_and_iff_or_not.mp h with h1 | h2
        · have : msgIdStr x = "" := Decidable.not_not.mp h1
          exact fun hc => hmid (hc ▸ this)
        · have : msgIdStr x ∈ seen := Decidable.not_not.mp h2
          exact fun hc => hnotin (hc ▸ this)
      · exact hall x hx

/-! ### Helper lemmas about the receive-and-release loop -/

/-- Receive-call justification: every `receiveMessages` call in the trace
`consumed` was issued while the collected unique-message count was still below
the requested amount and no earlier batch had come back empty — i.e. the loop
stops as soon as either stopping condition is reached. -/
def justified (amount : Nat) (consumed : List (List ReceivedMessage)) : Prop :=
  ∀ k, k < consumed.length →
    (dedupByMessageId ((consumed.take k).flatten)).length < amount ∧
      ∀ b ∈ consumed.take k, b ≠ []

/-- Loop invariant of `receiveAux`: starting from a state whose message list,
seen-set and abandon trace are the ones determined by the already-consumed
batches, the loop returns a result whose message list is the deduplication of
all consumed batches, whose abandon trace covers exactly the consumed
messages, whose batch count grows by at most the remaining fuel, and all of
whose receive calls are justified. -/
theorem receiveAux_spec (recv : Nat → List ReceivedMessage) (amount : Nat) :
    ∀ (fuel bc : Nat) (consumed : List (List ReceivedMessage))
      (msgs : List ReceivedMessage) (seen : List String)
      (abandoned : List ReceivedMessage) (r : RecvResult),
      msgs = (dedupAuxFull [] consumed.flatten).2 →
      seen = (dedupAuxFull [] consumed.flatten).1 →
      abandoned = consumed.flatten →
      justified amount consumed →
      (∀ b ∈ consumed, b ≠ []) →
      receiveAux recv amount fuel bc msgs seen consumed abandoned = r →
      r.messages = dedupByMessageId r.consumed.flatten ∧
        r.abandoned = r.consumed.flatten ∧
        r.consumed.length ≤ consumed.length + fuel ∧
        justified amount r.consumed := by
  intro fuel
  induction fuel with
  | zero =>
    intro bc consumed msgs seen abandoned r hm hs ha hj hne hr
    simp only [receiveAux] at hr
    subst hr
    exact ⟨by simp [hm, dedupByMessageId], by simp [ha], by simp, hj⟩
  | succ fuel ih =>
    intro bc consumed msgs seen abandoned r hm hs ha hj hne hr
    simp only [receiveAux] at hr
    by_cases hlt : msgs.length < amount
    · rw [if_pos hlt] at hr
      have hjext : justified amount (consumed ++ [recv bc]) := by
        intro k hk
        simp only [List.length_append, List.length_cons, List.length_nil] at hk
        have hk' : k ≤ consumed.length := by omega
        rw [List.take_append_of_le_length hk']
        rcases Nat.lt_or_ge k consumed.length with hcase | hcase
        · exact hj k hcase
        · have hkeq : k = consumed.length := by omega
          subst hkeq
          rw [List.take_length]
          refine ⟨?_, hne⟩
          simpa [dedupByMessageId, ← hm] using hlt
      by_cases hbe : recv bc = []
      · rw [if_pos hbe] at hr
        subst hr
        refine ⟨?_, ?_, ?_, ?_⟩
        · simp [hm, hbe, dedupByMessageId]
        · simp [ha, hbe]
        · simp only [List.length_append, List.length_cons, List.length_nil]
          omega
        · simpa [hbe] using hjext
      · rw [if_neg hbe] at hr
        have hflat : (consumed ++ [recv bc]).flatten = consumed.flatten ++ recv bc := by
          simp
        have := ih (bc + 1) (consumed ++ [recv bc])
          (msgs ++ (dedupAuxFull seen (recv bc)).2) (dedupAuxFull seen (recv bc)).1
          (abandoned ++ recv bc) r
          (by rw [hflat, dedupAuxFull_append, hm, hs])
          (by rw [hflat, dedupAuxFull_append, hs])
          (by rw [hflat, ha])
          hjext
          (by
            intro b hb
            rcases List.mem_append.mp hb with hb | hb
            · exact hne b hb
            · simp only [List.mem_singleton] at hb
              exact hb ▸ hbe)
          hr
        refine ⟨this.1, this.2.1, ?_, this.2.2.2⟩
        have := this.2.2.1
        simp only [List.length_append, List.length_cons, List.length_nil] at this
        omega
    · rw [if_neg hlt] at hr
      subst hr
      exact ⟨by simp [hm, dedupByMessageId], by simp [ha], by simp, hj⟩

/-- Specialisation of the loop invariant to `receiveAndAbandonMessages` as
called: the returned messages are the deduplication of all received batches,
every received message was abandoned, the number of `receiveMessages` calls is
bounded by the batch ceiling, and every call was justified. -/
theorem receiveAndAbandon_spec (recv : Nat → List ReceivedMessage) (amount : Nat) :
    (receiveAndAbandonMessages recv amount).messages =
      dedupByMessageId (receiveAndAbandonMessages recv amount).consumed.flatten ∧
      (receiveAndAbandonMessages recv amount).abandoned =
        (receiveAndAbandonMessages recv amount).consumed.flatten ∧
      (receiveAndAbandonMessages recv amount).consumed.length ≤ maxBatches amount ∧
      justified amount (receiveAndAbandonMessages recv amount).consumed := by
  by_cases h : amount ≤ 0
  · refine ⟨?_, ?_, ?_, ?_⟩ <;>
      simp [receiveAndAbandonMessages, h, dedupByMessageId, dedupAuxFull, justified, maxBatches]
  · have hspec := receiveAux_spec recv amount (maxBatches amount) 0 [] [] [] []
      (receiveAndAbandonMessages recv amount) rfl rfl rfl
      (by intro k hk; simp at hk) (by simp)
      (by simp [receiveAndAbandonMessages, h])
    exact ⟨hspec.1, hspec.2.1, by simpa using hspec.2.2.1, hspec.2.2.2⟩

/-! ### Helper lemma about the transfer loop -/

/-- In any trace produced by the transfer loop, an event completing a message
is preceded by the send of the chunk containing that message. -/
theorem transferAux_complete_after_send :
    ∀ (fuel : Nat) (msgs : List ReceivedMessage) (t₁ t₂ : List TransferEvent)
      (m : ReceivedMessage),
      transferAux fuel msgs = t₁ ++ TransferEvent.complete m :: t₂ →
      ∃ chunk : List ReceivedMessage, TransferEvent.send (chunk.map createMessageFromDeadletter) ∈ t₁ ∧ m ∈ chunk := by
  intro fuel
  induction fuel with
  | zero =>
    intro msgs t₁ t₂ m h
    simp only [transferAux] at h
    exact absurd h.symm (List.append_ne_nil_of_right_ne_nil t₁ (List.cons_ne_nil _ _))
  | succ fuel ih =>
    intro msgs t₁ t₂ m h
    cases msgs with
    | nil =>
      simp only [transferAux] at h
      exact absurd h.symm (List.append_ne_nil_of_right_ne_nil t₁ (List.cons_ne_nil _ _))
    | cons a rest =>
      simp only [transferAux] at h
      cases t₁ with
      | nil => simp at h
      | cons e t₁' =>
        rw [List.cons_append] at h
        injection h with he htail
        rcases List.append_eq_append_iff.mp htail with ⟨a', ha1, ha2⟩ | ⟨c', hc1, hc2⟩
        · obtain ⟨chunk, hsend, hmem⟩ := ih ((a :: rest).drop 10) a' t₂ m ha2
          exact ⟨chunk, List.mem_cons_of_mem _ (ha1 ▸ List.mem_append_right _ hsend), hmem⟩
        · cases c' with
          | nil =>
            simp only [List.nil_append] at hc2
            obtain ⟨chunk, hsend, _⟩ := ih ((a :: rest).drop 10) [] t₂ m hc2.symm
            exact absurd hsend (List.not_mem_nil _)
          | cons x c'' =>
            injection hc2 with hx hrest
            refine ⟨(a :: rest).take 10, ?_, ?_⟩
            · rw [he]
              exact List.mem_cons_self _ _
            · have hxmem : TransferEvent.complete m ∈ ((a :: rest).take 10).map TransferEvent.complete := by
                rw [hc1, ← hx]
                exact List.mem_append_right _ (List.mem_cons_self _ _)
              obtain ⟨y, hy, hyeq⟩ := List.mem_map.mp hxmem
              cases hyeq
              exact hy

/-- Claim C4 helper: `transferMessages` unfolds to the fuelled loop. -/
theorem transferMessages_eq (msgs : List ReceivedMessage) :
    transferMessages msgs = transferAux msgs.length msgs := rfl

/-! ### Claim theorems -/

/-- Claim C4: within a dead-letter transfer, whenever the event trace marks an
original message complete at the dead-letter source, the send of the chunk of
copies containing that message occurs strictly earlier in the trace: no
completion ever precedes its chunk's send. -/
theorem transfer_completes_only_after_chunk_send
    (msgs : List ReceivedMessage) (t₁ t₂ : List TransferEvent) (m : ReceivedMessage)
    (h : transferMessages msgs = t₁ ++ TransferEvent.complete m :: t₂) :
    ∃ chunk : List ReceivedMessage, TransferEvent.send (chunk.map createMessageFromDeadletter) ∈ t₁ ∧ m ∈ chunk :=
  transferAux_complete_after_send msgs.length msgs t₁ t₂ m h

/-- Sample received message used to instantiate witnesses on concrete data. -/
def sampleMessage (id : Option String) : ReceivedMessage :=
  ⟨id, "payload", some "text/plain", some "corr", some "subj", some "pk",
    some "rt", some "rts", some "sess", some 60000, [("k", "v")], 3, 17, 1700000000,
    some "MaxDeliveryCountExceeded", some "desc", "lock-1"⟩

/-- Claim C4 witness: in the concrete transfer of one dead-lettered message the
completion follows the send of its chunk. -/
theorem transfer_completes_only_after_chunk_send_witness :
    ∃ chunk : List ReceivedMessage,
      TransferEvent.send (chunk.map createMessageFromDeadletter) ∈
        [TransferEvent.send [createMessageFromDeadletter (sampleMessage (some "a"))]] ∧
      sampleMessage (some "a") ∈ chunk :=
  transfer_completes_only_after_chunk_send [sampleMessage (some "a")]
    [TransferEvent.send [createMessageFromDeadletter (sampleMessage (some "a"))]]
    [] (sampleMessage (some "a")) (by decide)

/-- Claim C5: the outbound copy built from a dead-lettered message preserves body,
contentType, correlationId, subject, messageId, partitionKey, replyTo,
replyToSessionId, sessionId, timeToLive and applicationProperties, and
carries nothing else: two received messages that agree on those eleven fields
produce identical outbound copies, whatever their remaining fields are. -/
theorem createMessageFromDeadletter_preserves_fields :
    (∀ m : ReceivedMessage,
      (createMessageFromDeadletter m).body = m.body ∧
      (createMessageFromDeadletter m).contentType = m.contentType ∧
      (createMessageFromDeadletter m).correlationId = m.correlationId ∧
      (createMessageFromDeadletter m).subject = m.subject ∧
      (createMessageFromDeadletter m).messageId = m.messageId ∧
      (createMessageFromDeadletter m).partitionKey = m.partitionKey ∧
      (createMessageFromDeadletter m).replyTo = m.replyTo ∧
      (createMessageFromDeadletter m).replyToSessionId = m.replyToSessionId ∧
      (createMessageFromDeadletter m).sessionId = m.sessionId ∧
      (createMessageFromDeadletter m).timeToLive = m.timeToLive ∧
      (createMessageFromDeadletter m).applicationProperties = m.applicationProperties) ∧
    ∀ m₁ m₂ : ReceivedMessage,
      m₁.body = m₂.body → m₁.contentType = m₂.contentType →
      m₁.correlationId = m₂.correlationId → m₁.subject = m₂.subject →
      m₁.messageId = m₂.messageId → m₁.partitionKey = m₂.partitionKey →
      m₁.replyTo = m₂.replyTo → m₁.replyToSessionId = m₂.replyToSessionId →
      m₁.sessionId = m₂.sessionId → m₁.timeToLive = m₂.timeToLive →
      m₁.applicationProperties = m₂.applicationProperties →
      createMessageFromDeadletter m₁ = createMessageFromDeadletter m₂ := by
  refine ⟨fun m => ?_, fun m₁ m₂ h1 h2 h3 h4 h5 h6 h7 h8 h9 h10 h11 => ?_⟩
  · exact ⟨rfl, rfl, rfl, rfl, rfl, rfl, rfl, rfl, rfl, rfl, rfl⟩
  · simp only [createMessageFromDeadletter, h1, h2, h3, h4, h5, h6, h7, h8, h9, h10, h11]

/-- Claim C5 witness: two concrete messages differing in delivery count, sequence
number, enqueued time, dead-letter metadata and lock token but agreeing on the
eleven carried fields yield the same outbound copy; the field projections hold
on concrete data. -/
theorem createMessageFromDeadletter_preserves_fields_witness :
    (createMessageFromDeadletter (sampleMessage (some "a"))).body
        = (sampleMessage (some "a")).body ∧
      createMessageFromDeadletter (sampleMessage (some "a")) =
        createMessageFromDeadletter
          ⟨some "a", "payload", some "text/plain", some "corr", some "subj", some "pk",
            some "rt", some "rts", some "sess", some 60000, [("k", "v")], 99, 1, 5,
            none, none, "other-lock"⟩ :=
  ⟨(createMessageFromDeadletter_preserves_fields.1 (sampleMessage (some "a"))).1,
    createMessageFromDeadletter_preserves_fields.2 _ _
      rfl rfl rfl rfl rfl rfl rfl rfl rfl rfl rfl⟩

/-- Claim C6 counterexample: the claim as stated says the richer (peek) variant
issues 5 concurrent peekMessages calls; on the code the fan-out constant is
50, so at the concrete request of 1 message the trace of issued calls has
length 50, not 5. -/
theorem peek_fanout_is_not_five_cx :
    (peekMessagesWithPeekLock (fun _ _ => []) 1).1.length = 50 ∧
      ¬ (peekMessagesWithPeekLock (fun _ _ => []) 1).1.length = 5 := by decide

/-- Claim C6 (amended): for every positive requested amount the peek mode issues a
fixed design-constant number of concurrent peekMessages calls — 50, not 5 —
against the same receiver, each requesting the full target count, and the
result merges and deduplicates the batches of all of them. -/
theorem peek_fanout_fifty_concurrent_calls (peek : Nat → Nat → List ReceivedMessage)
    (amount : Nat) (h : 0 < amount) :
    (peekMessagesWithPeekLock peek amount).1 = List.replicate 50 amount ∧
      (peekMessagesWithPeekLock peek amount).2 =
        dedupByMessageId (((List.range 50).map (fun i => peek i amount)).flatten) := by
  have h' : ¬ amount ≤ 0 := by omega
  simp [peekMessagesWithPeekLock, h', iterations]

/-- Claim C6 witness: the amended fan-out theorem applied at a concrete oracle and
amount 2. -/
theorem peek_fanout_fifty_concurrent_calls_witness :
    (peekMessagesWithPeekLock (fun _ _ => [sampleMessage (some "a")]) 2).1
        = List.replicate 50 2 ∧
      (peekMessagesWithPeekLock (fun _ _ => [sampleMessage (some "a")]) 2).2 =
        dedupByMessageId
          (((List.range 50).map (fun _ => [sampleMessage (some "a")])).flatten) :=
  peek_fanout_fifty_concurrent_calls (fun _ _ => [sampleMessage (some "a")]) 2 (by decide)

/-- Claim C7: for every requested amount > 0 and every broker behaviour, the
receive-and-release mode issues at most `ceil(amount/10) + 5` batch receives,
and every receive it issues is justified: at that point the collected unique
count was still below the requested amount and no earlier batch had returned
empty — so the loop stops as soon as either condition is reached.  The drain
loop is moreover a total function of the oracle, hence always terminates. -/
theorem receiveAndAbandon_batch_bound (recv : Nat → List ReceivedMessage) (amount : Nat)
    (_h : 0 < amount) :
    (receiveAndAbandonMessages recv amount).consumed.length ≤ (amount + 9) / 10 + 5 ∧
      justified amount (receiveAndAbandonMessages recv amount).consumed :=
  ⟨(receiveAndAbandon_spec recv amount).2.2.1, (receiveAndAbandon_spec recv amount).2.2.2⟩

/-- Claim C7 witness: the batch bound applied at amount 1 against an empty entity. -/
theorem receiveAndAbandon_batch_bound_witness :
    (receiveAndAbandonMessages (fun _ => []) 1).consumed.length ≤ (1 + 9) / 10 + 5 ∧
      justified 1 (receiveAndAbandonMessages (fun _ => []) 1).consumed :=
  receiveAndAbandon_batch_bound (fun _ => []) 1 (by decide)

/-- Claim C8: in both retrieval modes each messageId occurs at most once in the
returned list, and every returned message is the first occurrence of its id
in the fetched stream (the flattened batches of the concurrent peeks, resp.
of the sequential receives): duplicates are collapsed keeping the first
occurrence. -/
theorem retrieval_messageId_unique (peek : Nat → Nat → List ReceivedMessage)
    (recv : Nat → List ReceivedMessage) (amount : Nat) :
    (((peekMessagesWithPeekLock peek amount).2.map msgIdStr).Nodup ∧
      ∀ m ∈ (peekMessagesWithPeekLock peek amount).2,
        ∃ l₁ l₂ : List ReceivedMessage,
          ((List.range iterations).map (fun i => peek i amount)).flatten = l₁ ++ m :: l₂ ∧
            ∀ x ∈ l₁, msgIdStr x ≠ msgIdStr m) ∧
    ((receiveAndAbandonMessages recv amount).messages.map msgIdStr).Nodup ∧
      ∀ m ∈ (receiveAndAbandonMessages recv amount).messages,
        ∃ l₁ l₂ : List ReceivedMessage,
          (receiveAndAbandonMessages recv amount).consumed.flatten = l₁ ++ m :: l₂ ∧
            ∀ x ∈ l₁, msgIdStr x ≠ msgIdStr m := by
  refine ⟨?_, ?_, ?_⟩
  · by_cases h : amount ≤ 0
    · simp [peekMessagesWithPeekLock, h]
    · have hres : (peekMessagesWithPeekLock peek amount).2 =
          dedupByMessageId (((List.range iterations).map (fun i => peek i amount)).flatten) := by
        simp [peekMessagesWithPeekLock, h]
      rw [hres]
      refine ⟨(dedupAuxFull_fresh _ []).2, ?_⟩
      intro m hm
      obtain ⟨l₁, l₂, heq, _, hall⟩ := dedupAuxFull_first _ [] m hm
      exact ⟨l₁, l₂, heq, hall⟩
  · rw [(receiveAndAbandon_spec recv amount).1]
    exact (dedupAuxFull_fresh _ []).2
  · intro m hm
    rw [(receiveAndAbandon_spec recv amount).1] at hm
    obtain ⟨l₁, l₂, heq, _, hall⟩ := dedupAuxFull_first _ [] m hm
    exact ⟨l₁, l₂, heq, hall⟩

/-- Claim C8 witness: the first-occurrence decomposition applied to a concrete peek
retrieval whose 50 batches all contain the same message. -/
theorem retrieval_messageId_unique_witness :
    ∃ l₁ l₂ : List ReceivedMessage,
      ((List.range iterations).map
          (fun _ => [sampleMessage (some "a")])).flatten
        = l₁ ++ sampleMessage (some "a") :: l₂ ∧
        ∀ x ∈ l₁, msgIdStr x ≠ msgIdStr (sampleMessage (some "a")) :=
  (retrieval_messageId_unique (fun _ _ => [sampleMessage (some "a")]) (fun _ => []) 2).1.2
    (sampleMessage (some "a")) (by decide)

/-- Claim C10: a fetched message whose messageId is absent (stringifying to the
empty string) is silently dropped from the returned list in both retrieval
modes, even though in receive mode it is still abandoned at the broker: the
abandon trace covers every received message, returned or dropped. -/
theorem empty_messageId_dropped (peek : Nat → Nat → List ReceivedMessage)
    (recv : Nat → List ReceivedMessage) (amount : Nat) (m : ReceivedMessage)
    (h : msgIdStr m = "") :
    m ∉ (peekMessagesWithPeekLock peek amount).2 ∧
      m ∉ (receiveAndAbandonMessages recv amount).messages ∧
      (receiveAndAbandonMessages recv amount).abandoned =
        (receiveAndAbandonMessages recv amount).consumed.flatten := by
  refine ⟨?_, ?_, (receiveAndAbandon_spec recv amount).2.1⟩
  · intro hm
    by_cases ha : amount ≤ 0
    · simp [peekMessagesWithPeekLock, ha] at hm
    · have hres : (peekMessagesWithPeekLock peek amount).2 =
          dedupByMessageId (((List.range iterations).map (fun i => peek i amount)).flatten) := by
        simp [peekMessagesWithPeekLock, ha]
      rw [hres] at hm
      exact ((dedupAuxFull_fresh _ []).1 m hm).2 h
  · intro hm
    rw [(receiveAndAbandon_spec recv amount).1] at hm
    exact ((dedupAuxFull_fresh _ []).1 m hm).2 h

/-- Claim C10 witness: a concrete message without id, received in the only
non-empty batch, is absent from both results while the receive-mode abandon
trace equals the received stream (which contains it). -/
theorem empty_messageId_dropped_witness :
    sampleMessage none ∉
        (peekMessagesWithPeekLock (fun _ _ => [sampleMessage none]) 1).2 ∧
      sampleMessage none ∉
        (receiveAndAbandonMessages
          (fun bc => if bc = 0 then [sampleMessage none] else []) 1).messages ∧
      (receiveAndAbandonMessages
          (fun bc => if bc = 0 then [sampleMessage none] else []) 1).abandoned =
        (receiveAndAbandonMessages
          (fun bc => if bc = 0 then [sampleMessage none] else []) 1).consumed.flatten :=
  ⟨(empty_messageId_dropped (fun _ _ => [sampleMessage none])
      (fun bc => if bc = 0 then [sampleMessage none] else []) 1 (sampleMessage none) rfl).1,
    (empty_messageId_dropped (fun _ _ => [sampleMessage none])
      (fun bc => if bc = 0 then [sampleMessage none] else []) 1 (sampleMessage none) rfl).2.1,
    (empty_messageId_dropped (fun _ _ => [sampleMessage none])
      (fun bc => if bc = 0 then [sampleMessage none] else []) 1 (sampleMessage none) rfl).2.2⟩

/-- Claim C9: for both entity variants, a retrieval call with live count < 1 and
dead-letter count < 1 returns exactly the empty result pair with an empty
effect trace: no client handle is obtained, no receiver is created, and no
network call is issued. -/
theorem zero_counts_short_circuit (queue topic subscription : String)
    (amount dlAmount : Int) (useReceiveMode : Bool)
    (peekLive peekDl : Nat → Nat → List ReceivedMessage)
    (recvLive recvDl : Nat → List ReceivedMessage)
    (h1 : amount < 1) (h2 : dlAmount < 1) :
    peekQueueMessages queue amount dlAmount useReceiveMode peekLive peekDl recvLive recvDl
        = (([], []), []) ∧
      peekSubscriptionMessages topic subscription amount dlAmount useReceiveMode
          peekLive peekDl recvLive recvDl
        = (([], []), []) := by
  constructor <;> simp [peekQueueMessages, peekSubscriptionMessages, h1, h2]

/-- Claim C9 witness: the short-circuit applied at a zero live count and a negative
dead-letter count. -/
theorem zero_counts_short_circuit_witness :
    peekQueueMessages "orders" 0 (-1) true (fun _ _ => []) (fun _ _ => [])
        (fun _ => []) (fun _ => []) = (([], []), []) ∧
      peekSubscriptionMessages "topic" "sub" 0 (-1) true (fun _ _ => []) (fun _ _ => [])
        (fun _ => []) (fun _ => []) = (([], []), []) :=
  zero_counts_short_circuit "orders" "topic" "sub" 0 (-1) true
    (fun _ _ => []) (fun _ _ => []) (fun _ => []) (fun _ => [])
    (by decide) (by decide)

/-- Claim C1 (code-bug evaluation): a genuine Cosmos DB credential string — it
contains both `AccountEndpoint=` and `documents.azure.com`, and, like every
Cosmos DB credential string, no `Endpoint=sb://` marker — is rejected by
`validateConnectionString` with the generic format error, not with the
specific wrong-product Cosmos DB error: the Cosmos check sits after the two
marker checks, so it is unreachable for strings lacking the Service Bus
markers. -/
theorem cosmos_string_gets_generic_error :
    strIncludes "AccountEndpoint=https://myaccount.documents.azure.com:443/;AccountKey=key==;"
        "AccountEndpoint=" = true ∧
      strIncludes "AccountEndpoint=https://myaccount.documents.azure.com:443/;AccountKey=key==;"
        "documents.azure.com" = true ∧
      validateConnectionString
          "AccountEndpoint=https://myaccount.documents.azure.com:443/;AccountKey=key==;"
        = some endpointMsg ∧
      endpointMsg ≠ cosmosMsg := by decide

/-! ### Helper lemmas about association lists -/

/-- Number of entries under a key (a JavaScript `Map` always has 0 or 1). -/
def countKey {α : Type} (l : List (String × α)) (k : String) : Nat :=
  List.countP (fun p => p.1 = k) l

/-- Erasing a key removes every entry under it. -/
theorem lookupKey_eraseKey {α : Type} (l : List (String × α)) (k : String) :
    lookupKey (eraseKey l k) k = none := by
  induction l with
  | nil => rfl
  | cons p rest ih =>
    by_cases hp : p.1 = k
    · simp [eraseKey, lookupKey, hp, ih]
    · simp [eraseKey, lookupKey, List.find?, hp, ih]

/-- Erasing a key leaves no entry counted under it. -/
theorem countKey_eraseKey {α : Type} (l : List (String × α)) (k : String) :
    countKey (eraseKey l k) k = 0 := by
  induction l with
  | nil => rfl
  | cons p rest ih =>
    by_cases hp : p.1 = k
    · simp [eraseKey, countKey, List.filter, hp, ih]
    · simp [eraseKey, countKey, List.filter, List.countP_cons, hp, ih]

/-- A key that fails to look up is counted zero times. -/
theorem countKey_of_lookupKey_none {α : Type} {l : List (String × α)} {k : String}
    (h : lookupKey l k = none) : countKey l k = 0 := by
  induction l with
  | nil => rfl
  | cons p rest ih =>
    by_cases hp : p.1 = k
    · simp [lookupKey, List.find?, hp] at h
    · have hd : (decide (p.1 = k)) = false := by simpa using hp
      simp only [lookupKey, List.find?, hd] at h ih
      simpa [countKey, List.countP_cons, hp] using ih h

/-- Looking up after an absent first part falls through to the second part. -/
theorem lookupKey_append_of_none {α : Type} {l₁ : List (String × α)} {k : String}
    (l₂ : List (String × α)) (h : lookupKey l₁ k = none) :
    lookupKey (l₁ ++ l₂) k = lookupKey l₂ k := by
  induction l₁ with
  | nil => rfl
  | cons p rest ih =>
    by_cases hp : p.1 = k
    · simp [lookupKey, List.find?, hp] at h
    · have hd : (decide (p.1 = k)) = false := by simpa using hp
      simp only [lookupKey, List.find?, List.cons_append, List.append_eq, hd] at h ih ⊢
      exact ih h

/-- Setting an absent key appends it, so it counts exactly once afterwards. -/
theorem countKey_setKey_of_none {α : Type} {l : List (String × α)} {k : String}
    (h : lookupKey l k = none) (v : α) :
    countKey (setKey l k v) k = 1 := by
  have hns : ¬ (lookupKey l k).isSome := by simp [h]
  rw [setKey, if_neg hns]
  simp [countKey, List.countP_append, List.countP_cons]
  simpa [countKey] using countKey_of_lookupKey_none h

/-- Setting an absent key makes its lookup return the new value. -/
theorem lookupKey_setKey_of_none {α : Type} {l : List (String × α)} {k : String}
    (h : lookupKey l k = none) (v : α) :
    lookupKey (setKey l k v) k = some v := by
  have hns : ¬ (lookupKey l k).isSome := by simp [h]
  rw [setKey, if_neg hns, lookupKey_append_of_none _ h]
  simp [lookupKey, List.find?]

/-- Claim C2 counterexample: with data-plane handle 0 and admin handle 1 both cached
for connection string "c", `closeClient` closes only handle 0 and
`closeAllClients` also closes only the data-plane handles: the cached admin
handle 1 is evicted but never closed, refuting the claim that both cached
handles are closed. -/
theorem closeClient_leaves_admin_unclosed_cx :
    lookupKey (ManagerState.mk [("c", 0)] [("c", 1)]).adminClients "c" = some 1 ∧
      (closeClient ⟨[("c", 0)], [("c", 1)]⟩ "c").2 = [0] ∧
      1 ∉ (closeClient ⟨[("c", 0)], [("c", 1)]⟩ "c").2 ∧
      (closeAllClients ⟨[("c", 0)], [("c", 1)]⟩).2 = [0] ∧
      1 ∉ (closeAllClients ⟨[("c", 0)], [("c", 1)]⟩).2 := by decide

/-- Claim C2 (amended): `closeClient` closes exactly the cached data-plane handle
(when present) and evicts both the data-plane and the admin cache entry for
the string — the admin handle is evicted without a close call; and
`closeAllClients` closes exactly the cached data-plane handles and leaves
both caches empty, again without closing admin handles. -/
theorem closeClient_closes_data_and_evicts_both (st : ManagerState) (cs : String) :
    ((closeClient st cs).2 =
        (match lookupKey st.clients cs with
          | some h => [h]
          | none => [])) ∧
      lookupKey (closeClient st cs).1.clients cs = none ∧
      lookupKey (closeClient st cs).1.adminClients cs = none ∧
      (closeAllClients st).1.clients = [] ∧
      (closeAllClients st).1.adminClients = [] ∧
      (closeAllClients st).2 = st.clients.map (fun p => p.2) := by
  refine ⟨?_, ?_, ?_, rfl, rfl, rfl⟩
  · cases hc : lookupKey st.clients cs <;> simp [closeClient, hc]
  · cases hc : lookupKey st.clients cs <;>
      simp [closeClient, hc, lookupKey_eraseKey]
  · cases hc : lookupKey st.clients cs <;>
      simp [closeClient, hc, lookupKey_eraseKey]

/-- Claim C3 counterexample: with one active monitor for key "c:e", calling
startMonitoring for the same key on an entity that requires sessions stops
the prior monitor and then declines, leaving zero — not exactly one — active
monitors for the key. -/
theorem startMonitoring_session_leaves_zero_monitors_cx :
    (startMonitoring [(monitorKey "c" "e", ⟨0, "c", "e", EntityType.queue⟩)]
        "c" "e" EntityType.queue none (EntityProps.ok true) 1).outcome
        = StartOutcome.declinedSession ∧
      countKey (startMonitoring [(monitorKey "c" "e", ⟨0, "c", "e", EntityType.queue⟩)]
        "c" "e" EntityType.queue none (EntityProps.ok true) 1).monitors
        (monitorKey "c" "e") = 0 ∧
      ¬ countKey (startMonitoring [(monitorKey "c" "e", ⟨0, "c", "e", EntityType.queue⟩)]
        "c" "e" EntityType.queue none (EntityProps.ok true) 1).monitors
        (monitorKey "c" "e") = 1 := by decide

/-- Claim C3 (amended): after any startMonitoring call at most one monitor is
registered for the (connectionString, entityPath) key; an already-active
monitor for that key is stopped first (its receiver is closed); exactly one
monitor — the newly registered one — is active for the key when the start
succeeds, and zero remain when the call declines (session-required entity) or
errors (missing topic name or failed property lookup). -/
theorem startMonitoring_at_most_one_monitor (st : List (String × ActiveMonitor))
    (cs ep : String) (ty : EntityType) (tn : Option String) (props : EntityProps)
    (rid : Nat) :
    countKey (startMonitoring st cs ep ty tn props rid).monitors (monitorKey cs ep) ≤ 1 ∧
      ((startMonitoring st cs ep ty tn props rid).outcome = StartOutcome.started →
        countKey (startMonitoring st cs ep ty tn props rid).monitors (monitorKey cs ep) = 1 ∧
          lookupKey (startMonitoring st cs ep ty tn props rid).monitors (monitorKey cs ep)
            = some ⟨rid, cs, ep, ty⟩) ∧
      ((startMonitoring st cs ep ty tn props rid).outcome ≠ StartOutcome.started →
        countKey (startMonitoring st cs ep ty tn props rid).monitors (monitorKey cs ep) = 0) ∧
      ∀ mon, lookupKey st (monitorKey cs ep) = some mon →
        mon.receiverId ∈ (startMonitoring st cs ep ty tn props rid).closedReceivers := by
  have hstop1 : lookupKey ((if (lookupKey st (monitorKey cs ep)).isSome
      then stopMonitoring st cs ep else (st, [])).1) (monitorKey cs ep) = none := by
    by_cases hs : (lookupKey st (monitorKey cs ep)).isSome
    · obtain ⟨mon, hmon⟩ := Option.isSome_iff_exists.mp hs
      rw [if_pos hs, stopMonitoring, hmon]
      exact lookupKey_eraseKey st (monitorKey cs ep)
    · rw [if_neg hs]
      exact Option.not_isSome_iff_eq_none.mp hs
  have hstop0 : countKey ((if (lookupKey st (monitorKey cs ep)).isSome
      then stopMonitoring st cs ep else (st, [])).1) (monitorKey cs ep) = 0 :=
    countKey_of_lookupKey_none hstop1
  have hclosed : ∀ mon, lookupKey st (monitorKey cs ep) = some mon →
      mon.receiverId ∈ ((if (lookupKey st (monitorKey cs ep)).isSome
        then stopMonitoring st cs ep else (st, [])).2) := by
    intro mon hmon
    rw [if_pos (by simp [hmon]), stopMonitoring, hmon]
    exact List.mem_singleton.mpr rfl
  rcases ty with _ | _ <;> rcases tn with _ | tname <;>
    rcases props with ⟨_ | _⟩ | _ <;>
    simp only [startMonitoring] <;>
    (refine ⟨?_, ?_, ?_, hclosed⟩ <;>
      simp_all [countKey_setKey_of_none hstop1, lookupKey_setKey_of_none hstop1])

/-- Claim C3 witness: a successful concrete restart — one prior monitor for the key,
a session-free queue — preserves the at-most-one bound, registers exactly the
new monitor, and has closed the prior receiver. -/
theorem startMonitoring_at_most_one_monitor_witness :
    countKey (startMonitoring [(monitorKey "c" "e", ⟨0, "c", "e", EntityType.queue⟩)]
        "c" "e" EntityType.queue none (EntityProps.ok false) 1).monitors
        (monitorKey "c" "e") = 1 ∧
      (0 : Nat) ∈ (startMonitoring [(monitorKey "c" "e", ⟨0, "c", "e", EntityType.queue⟩)]
        "c" "e" EntityType.queue none (EntityProps.ok false) 1).closedReceivers :=
  ⟨((startMonitoring_at_most_one_monitor
      [(monitorKey "c" "e", ⟨0, "c", "e", EntityType.queue⟩)]
      "c" "e" EntityType.queue none (EntityProps.ok false) 1).2.1 (by decide)).1,
    (startMonitoring_at_most_one_monitor
      [(monitorKey "c" "e", ⟨0, "c", "e", EntityType.queue⟩)]
      "c" "e" EntityType.queue none (EntityProps.ok false) 1).2.2.2
      ⟨0, "c", "e", EntityType.queue⟩ (by decide)⟩

end PeekUI


